import Mathlib

/-!
Shallow embedding of `src/no-modal-demo.py` (function `demo`).

The program is an iterative "reverse embedding search" loop.  The two external
services are modelled as oracles:
  - `dist : String → ℚ` gives, for a guess text, the Euclidean distance between
    its embedding and the target vector (the composition of the embedding call
    at line 86 with the norm computation at lines 94-96; embeddings are
    deterministic per text, so the distance is a function of the text).
  - `reply : Nat → String` gives the guidance model's reply text accepted in
    iteration `n` (`res['message']['content']`, line 134).
Python floats are modelled as exact rationals; the loop only compares them and
formats them with 4 decimals, and no claim hinges on binary rounding of a
specific float.

`list(set(xs))` (lines 98 and 100) has an implementation-defined element order
in Python (hash-based, randomized per process for strings), so it is modelled
nondeterministically: the loop takes dedup functions `dedB`, `dedP` as
parameters, and `pySetOk xs (ded xs)` states exactly what Python guarantees:
the output is duplicate-free and has the same membership as the input.

The unbounded retry loops around the two service calls (lines 84-90 and
118-131) are modelled separately (`retryEmbed`, `chatRetry`) with a fuel
argument; returning `none` models the real loop still spinning (it never
returns an error).
-/

namespace NoModalDemo

/-- Stop threshold, line 54: `MATCH_ERROR = 0.6`. -/
def MATCH_ERROR : ℚ := mkRat 3 5

/-- Budget, line 55: `COST_LIMIT = 60.0`. -/
def COST_LIMIT : ℚ := 60

/-- Backoff after a failed embedding call, line 90: `time.sleep(7)`. -/
def EMBED_RETRY_DELAY : Nat := 7

/-- Backoff after a failed chat call, line 131: `time.sleep(5)`. -/
def CHAT_RETRY_DELAY : Nat := 5

/-- Initial guess text, line 31: `TEXT = "Be"`. -/
def INITIAL_TEXT : String := "Be"

/-- Left-pad a natural number with zeros to 4 digits. -/
def pad4 (n : Nat) : String :=
  let s := toString n
  String.mk (List.replicate (4 - s.length) '0') ++ s

/-- Python `f"{x:.4f}"` for a non-negative rational: x rounded to 4 decimal
places.  (Rounding of an exact half is immaterial here: the modelled values
come from square roots of floats and the claims never exercise a tie.)
Computed on `num`/`den` directly: round(q*10^4) = ⌊(2*num*10^4 + den) / (2*den)⌋. -/
def fmt4 (q : ℚ) : String :=
  let n : Nat := (q.num.toNat * 10000 * 2 + q.den) / (2 * q.den)
  toString (n / 10000) ++ "." ++ pad4 (n % 10000)

/-- Guess Record, line 105: `m = f"ERROR {VECTOR_ERROR:.4f}, \"{TEXT}\""`. -/
def mkRecord (d : ℚ) (t : String) : String :=
  "ERROR " ++ fmt4 d ++ ", \"" ++ t ++ "\""

/-- Code-point comparison of characters (Python compares code points). -/
def charLtB (a b : Char) : Bool := a.toNat < b.toNat

/-- Lexicographic comparison of character lists, Python `str.__lt__`. -/
def chLt : List Char → List Char → Bool
  | [], [] => false
  | [], _ :: _ => true
  | _ :: _, [] => false
  | a :: as, b :: bs =>
    if charLtB a b then true
    else if charLtB b a then false
    else chLt as bs

/-- Python `<` on strings. -/
def pyStrLt (a b : String) : Bool := chLt a.data b.data

/-- Insert a string into an already sorted list, before the first element not
below it (the insertion step of a stable sort by `pyStrLt`). -/
def pyInsert (x : String) : List String → List String
  | [] => [x]
  | y :: ys => if pyStrLt y x then y :: pyInsert x ys else x :: y :: ys

/-- Python `list.sort()` on strings (line 112): a stable sort by `pyStrLt`.
Over a total order any two stable sorts agree, so insertion sort is an exact
model of Timsort here. -/
def pySort : List String → List String
  | [] => []
  | x :: xs => pyInsert x (pySort xs)

/-- Ascending by Python string order: no adjacent pair is strictly descending. -/
def sortedB : List String → Bool
  | [] => true
  | [_] => true
  | a :: b :: t => (!pyStrLt b a) && sortedB (b :: t)

/-- What Python guarantees about `out = list(set(inp))` (lines 98 and 100):
`out` is duplicate-free and has exactly the members of `inp`; its order is
implementation-defined. -/
def pySetOk (inp out : List String) : Prop :=
  out.Nodup ∧ (∀ s ∈ out, s ∈ inp) ∧ (∀ s ∈ inp, s ∈ out)

instance (inp out : List String) : Decidable (pySetOk inp out) := by
  unfold pySetOk; infer_instance

/-- A dedup oracle that is admissible as `list(set(·))` on every input. -/
def DedOk (ded : List String → List String) : Prop :=
  ∀ xs, pySetOk xs (ded xs)

/-- One admissible dedup oracle (keeps one copy of each element). -/
def dedKeep (xs : List String) : List String := xs.dedup

/-- Another admissible dedup oracle: dedup and reverse.  Python's set order is
hash-based and randomized, so no particular order — in particular not the
insertion order — is guaranteed. -/
def dedRev (xs : List String) : List String := xs.dedup.reverse

/-- The fixed task prompt, lines 65-81, up to the single interpolation site
`{TEXT}` inside the clue line. -/
def promptPre : String :=
  "User input is last iterative guess of an unknown text string and its vector ERROR from the unknown text.\n    Determine a better text string having a lower vector ERROR and write only that string in English as your entire output.\n    The goal is to accurately guess the mystery text. \n    This is a game of guess-and-check. \n\n\n    [clue]\n    TWO WORDS; CLUE: FIRST WORD IS `"

/-- The fixed task prompt after the interpolation site. -/
def promptPost : String :=
  "`; SECOND WORD YOU HAVE TO GUESS. RESPOND WITH EXACTLY TWO WORDS.\n    [/clue]\n\n    [RESPONSE CRITERIA]\n    - DO NOT REPEAT YOURSELF, CONSIDER `RECENT_PRIOR_GUESSES` and `BEST_GUESSES` PROVIDED IN [context] and `clue` when formulating your answer.\n    - RESPOND WITH COMPLETE GUESS. 2 WORD MAX.\n    - DO NOT REPEAT ANY OF THE `BEST_GUESSES` AND `RECENT_PRIOR_GUESSES` PROVIDED IN [context].\n    - DO NOT REPEAT YOURSELF, CONSIDER `RECENT_PRIOR_GUESSES` and `BEST_GUESSES` and `clue` when formulating your answer.\n    [/RESPONSE CRITERIA]\n    "

/-- Line 65: `prompt = f"""... FIRST WORD IS \x60{TEXT}\x60 ..."""`, evaluated
once, before the loop, with `TEXT` still the initial guess. -/
def mkPrompt (t : String) : String := promptPre ++ t ++ promptPost

/-- Mutable run state of `demo` (lines 57-63 and the loop body).
`CURRENT_BEST_ERROR = none` models the initial `np.inf` (line 57). -/
structure St where
  TEXT : String
  CURRENT_BEST_TEXT : String
  CURRENT_BEST_ERROR : Option ℚ
  GUESSES_MADE : Nat
  BEST_GUESSES : List String
  PRIOR_GUESSES : List String
  TOTAL_COST : ℚ
  prompt : String
deriving DecidableEq

/-- State just before the `while` loop (lines 57-81). -/
def initSt (t : String) : St :=
  { TEXT := t
    CURRENT_BEST_TEXT := t
    CURRENT_BEST_ERROR := none
    GUESSES_MADE := 0
    BEST_GUESSES := []
    PRIOR_GUESSES := []
    TOTAL_COST := 0
    prompt := mkPrompt t }

/-- `d < CURRENT_BEST_ERROR` with `none` as `np.inf` (line 107). -/
def ltInf (d : ℚ) : Option ℚ → Bool
  | none => true
  | some b => decide (d < b)

/-- Order on best errors with `none` as `np.inf`. -/
def leInfB : Option ℚ → Option ℚ → Bool
  | _, none => true
  | none, some _ => false
  | some a, some b => decide (a ≤ b)

/-- Lines 107-113: if the new error beats the current best, update best
text/error, append the record, sort, truncate to top 3; otherwise leave all
three unchanged.  Returns (best text, best error, best guesses). -/
def bestUpdate (d : ℚ) (t btxt : String) (berr : Option ℚ) (bg : List String) :
    String × Option ℚ × List String :=
  if ltInf d berr then (t, some d, (pySort (bg ++ [mkRecord d t])).take 3)
  else (btxt, berr, bg)

/-- Lines 135-141: append the record, and if the window now has more than 8
entries drop its first element.  Returns (new window, dropped entry if any). -/
def priorUpdate (pg : List String) (m : String) : List String × Option String :=
  if 8 < (pg ++ [m]).length then ((pg ++ [m]).drop 1, (pg ++ [m]).head?)
  else (pg ++ [m], none)

/-- Stop reasons of the `while` loop. -/
inductive StopReason
  | matched
  | budget
deriving DecidableEq

/-- Result of one iteration of the loop body (lines 83-141): the next state
(`Sum.inl` if the body hit `break` at line 116, `Sum.inr` if it fell through
to the guidance step), together with the iteration's observable outputs: the
two deduplicated lists put into the `assist` context (line 103), the user
message record `m` (line 105), and the window entry dropped by the cap
(line 141), if any. -/
structure BodyOut where
  next : St ⊕ St
  shownBest : List String
  shownPrior : List String
  userMsg : String
  evicted : Option String

/-- One pass through the loop body, lines 83-141. -/
def body (dist : String → ℚ) (reply : Nat → String)
    (dedB dedP : List String → List String) (s : St) : BodyOut :=
  let d := dist s.TEXT
  let bg1 := dedB s.BEST_GUESSES
  let pg1 := dedP s.PRIOR_GUESSES
  let m := mkRecord d s.TEXT
  let u := bestUpdate d s.TEXT s.CURRENT_BEST_TEXT s.CURRENT_BEST_ERROR bg1
  if d ≤ MATCH_ERROR then
    { next := Sum.inl { s with
        GUESSES_MADE := s.GUESSES_MADE + 1
        CURRENT_BEST_TEXT := u.1
        CURRENT_BEST_ERROR := u.2.1
        BEST_GUESSES := u.2.2
        PRIOR_GUESSES := pg1 }
      shownBest := bg1
      shownPrior := pg1
      userMsg := m
      evicted := none }
  else
    let p := priorUpdate pg1 m
    { next := Sum.inr { s with
        TEXT := reply (s.GUESSES_MADE + 1)
        GUESSES_MADE := s.GUESSES_MADE + 1
        CURRENT_BEST_TEXT := u.1
        CURRENT_BEST_ERROR := u.2.1
        BEST_GUESSES := u.2.2
        PRIOR_GUESSES := p.1 }
      shownBest := bg1
      shownPrior := pg1
      userMsg := m
      evicted := p.2 }

/-- State after one iteration, whichever way the body ended. -/
def stepSt (dist : String → ℚ) (reply : Nat → String)
    (dedB dedP : List String → List String) (s : St) : St :=
  Sum.elim id id (body dist reply dedB dedP s).next

/-- State after `n` iterations of the body from the initial state. -/
def runN (dist : String → ℚ) (reply : Nat → String)
    (dedB dedP : List String → List String) (t0 : String) : Nat → St
  | 0 => initSt t0
  | n + 1 => stepSt dist reply dedB dedP (runN dist reply dedB dedP t0 n)

/-- The `while TOTAL_COST < COST_LIMIT` loop (lines 82-141) with fuel:
`none` means still running after `fuel` iterations. -/
def loop (dist : String → ℚ) (reply : Nat → String)
    (dedB dedP : List String → List String) (costLimit : ℚ) :
    Nat → St → Option (StopReason × St)
  | 0, _ => none
  | fuel + 1, s =>
    if s.TOTAL_COST < costLimit then
      match (body dist reply dedB dedP s).next with
      | Sum.inl s2 => some (StopReason.matched, s2)
      | Sum.inr s2 => loop dist reply dedB dedP costLimit fuel s2
    else some (StopReason.budget, s)

/-- The embedding retry loop, lines 84-90: call attempt `k`; on success break
with the value, on any exception log it, sleep `EMBED_RETRY_DELAY`, and try
again, with no retry ceiling.  Result: (value, index of the first successful
attempt, total time slept); `none` models the loop still retrying after
`fuel` attempts — it never returns an error. -/
def retryEmbed {α : Type} (att : Nat → Except String α) : Nat → Nat → Option (α × Nat × Nat)
  | _, 0 => none
  | k, fuel + 1 =>
    match att k with
    | Except.ok v => some (v, k, 0)
    | Except.error _ =>
      match retryEmbed att (k + 1) fuel with
      | some (v, j, w) => some (v, j, w + EMBED_RETRY_DELAY)
      | none => none

/-- The `ollama.chat` response: `res['message']` is a Python dict, modelled as
an association list of its fields. -/
structure ChatResp where
  message : List (String × String)
deriving DecidableEq

/-- Line 127: `if res['message']:` — bare truthiness of the message dict. -/
def truthy (r : ChatResp) : Bool := !r.message.isEmpty

/-- Line 134: `TEXT = res['message']['content']` — the accepted reply's
content becomes the next guess verbatim (`none` models a `KeyError`). -/
def nextGuess (r : ChatResp) : Option String := r.message.lookup "content"

/-- The chat retry loop, lines 118-131: call attempt `k`; accept the response
iff `truthy` holds of its message, re-calling on a falsy message without any
sleep; on an exception log it, sleep `CHAT_RETRY_DELAY`, and retry, with no
ceiling.  Result: (accepted response, index of the accepting attempt, total
time slept); `none` models the loop still retrying. -/
def chatRetry (att : Nat → Except String ChatResp) : Nat → Nat → Option (ChatResp × Nat × Nat)
  | _, 0 => none
  | k, fuel + 1 =>
    match att k with
    | Except.ok r =>
      if truthy r then some (r, k, 0)
      else
        match chatRetry att (k + 1) fuel with
        | some (r2, j, w) => some (r2, j, w)
        | none => none
    | Except.error _ =>
      match chatRetry att (k + 1) fuel with
      | some (r2, j, w) => some (r2, j, w + CHAT_RETRY_DELAY)
      | none => none

/-- Constant distance oracle. -/
def distConst (q : ℚ) : String → ℚ := fun _ => q

/-- Constant reply oracle. -/
def replyConst (t : String) : Nat → String := fun _ => t

/-- Reply oracle producing a fresh guess text each iteration. -/
def replyIdx (n : Nat) : String := "guess " ++ toString n

/-- Distance oracle for the sortedness scenario: the first three guess texts
of a run driven by `replyIdx` get strictly decreasing distances, all above the
match threshold. -/
def distTbl (t : String) : ℚ :=
  if t = "Be" then 1 else if t = "guess 1" then mkRat 9 10 else mkRat 8 10

/-- Embedding attempt sequence that fails once and then succeeds. -/
def attOnce (j : Nat) : Except String Nat :=
  if j = 0 then Except.error "connection refused" else Except.ok 42

/-- A chat response whose message dict has a role and an empty content string:
the dict is non-empty, hence truthy in Python. -/
def ceResp : ChatResp := ⟨[("role", "assistant"), ("content", "")]⟩

/-- Chat attempt sequence that raises once and then returns `ceResp`. -/
def attChat (j : Nat) : Except String ChatResp :=
  if j = 0 then Except.error "connection refused" else Except.ok ceResp

/-- Eight iterations of the loop with constant distance 1 (no match, no new
best after the first), fresh replies, and a dedup order that reverses the
window: the state whose ninth iteration overflows the 8-entry cap. -/
def ceC1run : St := runN (distConst 1) replyIdx dedKeep dedRev "Be" 8

/-- Two iterations under `distTbl`, with the best list deduplicated in
reversed order: the state whose third iteration shows an unsorted
`BEST_GUESSES` context. -/
def ceC2run : St := runN distTbl replyIdx dedRev dedKeep "Be" 2

/-! ## Helper lemmas -/

theorem pySetOk_length_le {inp out : List String} (h : pySetOk inp out) :
    out.length ≤ inp.length := by
  rcases h with ⟨hnd, hsub, -⟩
  calc out.length = out.toFinset.card := (List.toFinset_card_of_nodup hnd).symm
    _ ≤ inp.toFinset.card := by
        apply Finset.card_le_card
        intro a ha
        rw [List.mem_toFinset] at ha ⊢
        exact hsub a ha
    _ ≤ inp.length := List.toFinset_card_le inp

theorem dedOk_dedKeep : DedOk dedKeep := by
  intro xs
  exact ⟨List.nodup_dedup xs, fun s hs => List.mem_dedup.mp hs,
    fun s hs => List.mem_dedup.mpr hs⟩

theorem dedOk_dedRev : DedOk dedRev := by
  intro xs
  refine ⟨List.nodup_reverse.mpr (List.nodup_dedup xs), ?_, ?_⟩
  · intro s hs
    simp only [dedRev, List.mem_reverse, List.mem_dedup] at hs
    exact hs
  · intro s hs
    simp only [dedRev, List.mem_reverse, List.mem_dedup]
    exact hs

theorem stepSt_BEST (dist : String → ℚ) (reply : Nat → String)
    (dedB dedP : List String → List String) (s : St) :
    (stepSt dist reply dedB dedP s).BEST_GUESSES =
      (bestUpdate (dist s.TEXT) s.TEXT s.CURRENT_BEST_TEXT s.CURRENT_BEST_ERROR
        (dedB s.BEST_GUESSES)).2.2 := by
  simp only [stepSt, body]
  split <;> rfl

theorem stepSt_ERR (dist : String → ℚ) (reply : Nat → String)
    (dedB dedP : List String → List String) (s : St) :
    (stepSt dist reply dedB dedP s).CURRENT_BEST_ERROR =
      (bestUpdate (dist s.TEXT) s.TEXT s.CURRENT_BEST_TEXT s.CURRENT_BEST_ERROR
        (dedB s.BEST_GUESSES)).2.1 := by
  simp only [stepSt, body]
  split <;> rfl

theorem stepSt_BTXT (dist : String → ℚ) (reply : Nat → String)
    (dedB dedP : List String → List String) (s : St) :
    (stepSt dist reply dedB dedP s).CURRENT_BEST_TEXT =
      (bestUpdate (dist s.TEXT) s.TEXT s.CURRENT_BEST_TEXT s.CURRENT_BEST_ERROR
        (dedB s.BEST_GUESSES)).1 := by
  simp only [stepSt, body]
  split <;> rfl

theorem stepSt_PRIOR (dist : String → ℚ) (reply : Nat → String)
    (dedB dedP : List String → List String) (s : St) :
    (stepSt dist reply dedB dedP s).PRIOR_GUESSES =
      if dist s.TEXT ≤ MATCH_ERROR then dedP s.PRIOR_GUESSES
      else (priorUpdate (dedP s.PRIOR_GUESSES) (mkRecord (dist s.TEXT) s.TEXT)).1 := by
  simp only [stepSt, body]
  split <;> simp_all

theorem stepSt_COST (dist : String → ℚ) (reply : Nat → String)
    (dedB dedP : List String → List String) (s : St) :
    (stepSt dist reply dedB dedP s).TOTAL_COST = s.TOTAL_COST := by
  simp only [stepSt, body]
  split <;> rfl

theorem stepSt_prompt (dist : String → ℚ) (reply : Nat → String)
    (dedB dedP : List String → List String) (s : St) :
    (stepSt dist reply dedB dedP s).prompt = s.prompt := by
  simp only [stepSt, body]
  split <;> rfl

theorem body_isLeft_iff (dist : String → ℚ) (reply : Nat → String)
    (dedB dedP : List String → List String) (s : St) :
    (body dist reply dedB dedP s).next.isLeft = true ↔ dist s.TEXT ≤ MATCH_ERROR := by
  simp only [body]
  split_ifs with h
  · simp [h]
  · simp [h]

theorem body_inl_state (dist : String → ℚ) (reply : Nat → String)
    (dedB dedP : List String → List String) (s s2 : St)
    (h : (body dist reply dedB dedP s).next = Sum.inl s2) :
    s2.TEXT = s.TEXT ∧ s2.PRIOR_GUESSES = dedP s.PRIOR_GUESSES := by
  revert h
  simp only [body]
  split_ifs with hd
  · intro h
    injection h with h2
    subst h2
    exact ⟨rfl, rfl⟩
  · intro h
    exact h.elim

theorem bestUpdate_le (d : ℚ) (t btxt : String) (berr : Option ℚ) (bg : List String) :
    leInfB (bestUpdate d t btxt berr bg).2.1 berr = true := by
  unfold bestUpdate
  split_ifs with h
  · cases berr with
    | none => rfl
    | some b =>
      simp only [leInfB, decide_eq_true_eq]
      simp only [ltInf, decide_eq_true_eq] at h
      exact le_of_lt h
  · cases berr with
    | none => rfl
    | some b => simp [leInfB]

theorem bestUpdate_pos (d : ℚ) (t btxt : String) (berr : Option ℚ) (bg : List String)
    (h : ltInf d berr = true) :
    bestUpdate d t btxt berr bg = (t, some d, (pySort (bg ++ [mkRecord d t])).take 3) := by
  unfold bestUpdate
  simp [h]

theorem bestUpdate_neg (d : ℚ) (t btxt : String) (berr : Option ℚ) (bg : List String)
    (h : ltInf d berr = false) :
    bestUpdate d t btxt berr bg = (btxt, berr, bg) := by
  unfold bestUpdate
  simp [h]

theorem runN_zero (dist : String → ℚ) (reply : Nat → String)
    (dedB dedP : List String → List String) (t0 : String) :
    runN dist reply dedB dedP t0 0 = initSt t0 := rfl

theorem runN_succ (dist : String → ℚ) (reply : Nat → String)
    (dedB dedP : List String → List String) (t0 : String) (n : Nat) :
    runN dist reply dedB dedP t0 (n + 1) =
      stepSt dist reply dedB dedP (runN dist reply dedB dedP t0 n) := rfl

/-! ## Claim theorems -/

set_option maxRecDepth 16000 in
/-- C3: the loop body breaks out (skipping the guidance step of that
iteration) if and only if the just-evaluated distance is at most
`MATCH_ERROR` (line 115); on a break the guess text is left untouched and no
record is appended to the window — no guidance work happens.  Concretely, a
distance of 0.8794 does not stop the loop and a distance of 0.3751 stops it
immediately after evaluation. -/
theorem c3_stop_iff_threshold :
    (∀ (dist : String → ℚ) (reply : Nat → String)
        (dedB dedP : List String → List String) (s : St),
      ((body dist reply dedB dedP s).next.isLeft = true ↔ dist s.TEXT ≤ MATCH_ERROR) ∧
      (∀ s2, (body dist reply dedB dedP s).next = Sum.inl s2 →
        s2.TEXT = s.TEXT ∧ s2.PRIOR_GUESSES = dedP s.PRIOR_GUESSES)) ∧
    (body (distConst (mkRat 8794 10000)) (replyConst "w") dedKeep dedKeep
        (initSt INITIAL_TEXT)).next.isLeft = false ∧
    (body (distConst (mkRat 3751 10000)) (replyConst "w") dedKeep dedKeep
        (initSt INITIAL_TEXT)).next.isLeft = true := by
  refine ⟨?_, by decide, by decide⟩
  intro dist reply dedB dedP s
  exact ⟨body_isLeft_iff dist reply dedB dedP s,
    fun s2 h => body_inl_state dist reply dedB dedP s s2 h⟩

set_option maxRecDepth 16000 in
/-- C3 witness: at the initial state with constant distance 0.3751 the body
breaks, keeping the guess text and appending nothing to the window. -/
theorem c3_stop_iff_witness :
    (stepSt (distConst (mkRat 3751 10000)) (replyConst "w") dedKeep dedKeep
        (initSt INITIAL_TEXT)).TEXT = (initSt INITIAL_TEXT).TEXT ∧
    (stepSt (distConst (mkRat 3751 10000)) (replyConst "w") dedKeep dedKeep
        (initSt INITIAL_TEXT)).PRIOR_GUESSES = dedKeep (initSt INITIAL_TEXT).PRIOR_GUESSES :=
  (c3_stop_iff_threshold.1 (distConst (mkRat 3751 10000)) (replyConst "w") dedKeep dedKeep
      (initSt INITIAL_TEXT)).2
    (stepSt (distConst (mkRat 3751 10000)) (replyConst "w") dedKeep dedKeep
      (initSt INITIAL_TEXT)) (by decide)

/-- C4: the current best distance never increases across an iteration, and it
is updated (to the new distance, together with the best text) exactly when
the new distance is strictly below the current best (lines 107-110). -/
theorem c4_best_monotone (dist : String → ℚ) (reply : Nat → String)
    (dedB dedP : List String → List String) (t0 : String) :
    (∀ s : St,
      leInfB (stepSt dist reply dedB dedP s).CURRENT_BEST_ERROR s.CURRENT_BEST_ERROR = true ∧
      (ltInf (dist s.TEXT) s.CURRENT_BEST_ERROR = true →
        (stepSt dist reply dedB dedP s).CURRENT_BEST_ERROR = some (dist s.TEXT) ∧
        (stepSt dist reply dedB dedP s).CURRENT_BEST_TEXT = s.TEXT) ∧
      (ltInf (dist s.TEXT) s.CURRENT_BEST_ERROR = false →
        (stepSt dist reply dedB dedP s).CURRENT_BEST_ERROR = s.CURRENT_BEST_ERROR ∧
        (stepSt dist reply dedB dedP s).CURRENT_BEST_TEXT = s.CURRENT_BEST_TEXT)) ∧
    (∀ n, leInfB (runN dist reply dedB dedP t0 (n + 1)).CURRENT_BEST_ERROR
        (runN dist reply dedB dedP t0 n).CURRENT_BEST_ERROR = true) := by
  constructor
  · intro s
    refine ⟨?_, ?_, ?_⟩
    · rw [stepSt_ERR]
      exact bestUpdate_le _ _ _ _ _
    · intro h
      rw [stepSt_ERR, stepSt_BTXT, bestUpdate_pos _ _ _ _ _ h]
      exact ⟨rfl, rfl⟩
    · intro h
      rw [stepSt_ERR, stepSt_BTXT, bestUpdate_neg _ _ _ _ _ h]
      exact ⟨rfl, rfl⟩
  · intro n
    rw [runN_succ, stepSt_ERR]
    exact bestUpdate_le _ _ _ _ _

set_option maxRecDepth 16000 in
/-- C4 witness: at the initial state (best = infinity) a distance of 0.3751
strictly improves the best, so text and error are updated to it. -/
theorem c4_best_monotone_witness :
    (stepSt (distConst (mkRat 3751 10000)) (replyConst "w") dedKeep dedKeep
        (initSt INITIAL_TEXT)).CURRENT_BEST_ERROR = some (mkRat 3751 10000) ∧
    (stepSt (distConst (mkRat 3751 10000)) (replyConst "w") dedKeep dedKeep
        (initSt INITIAL_TEXT)).CURRENT_BEST_TEXT = "Be" :=
  ((c4_best_monotone (distConst (mkRat 3751 10000)) (replyConst "w") dedKeep dedKeep
      "Be").1 (initSt INITIAL_TEXT)).2.1 (by decide)

/-- C5: `TOTAL_COST` is never incremented: each iteration preserves it, it is
0 after any number of iterations from the start (its initial value, line 63),
and with any strictly positive cost limit the loop can only ever terminate
with a match — the budget stop never fires. -/
theorem c5_cost_zero (dist : String → ℚ) (reply : Nat → String)
    (dedB dedP : List String → List String) (t0 : String) :
    (∀ s : St, (stepSt dist reply dedB dedP s).TOTAL_COST = s.TOTAL_COST) ∧
    (∀ n, (runN dist reply dedB dedP t0 n).TOTAL_COST = 0) ∧
    (∀ limit : ℚ, 0 < limit → ∀ fuel r s,
      loop dist reply dedB dedP limit fuel (initSt t0) = some (r, s) →
      r = StopReason.matched) := by
  have hstep : ∀ s : St, (stepSt dist reply dedB dedP s).TOTAL_COST = s.TOTAL_COST :=
    stepSt_COST dist reply dedB dedP
  have hrun : ∀ n, (runN dist reply dedB dedP t0 n).TOTAL_COST = 0 := by
    intro n
    induction n with
    | zero => rfl
    | succ n ih => rw [runN_succ, hstep]; exact ih
  refine ⟨hstep, hrun, ?_⟩
  intro limit hpos fuel
  suffices h : ∀ fuel (s0 : St), s0.TOTAL_COST = 0 →
      ∀ r s, loop dist reply dedB dedP limit fuel s0 = some (r, s) →
      r = StopReason.matched from fun r s => h fuel (initSt t0) rfl r s
  intro fuel
  induction fuel with
  | zero => intro s0 _ r s h; cases h
  | succ fuel ih =>
    intro s0 hc r s h
    rw [loop] at h
    rw [if_pos (hc ▸ hpos)] at h
    revert h
    cases hnext : (body dist reply dedB dedP s0).next with
    | inl s2 => intro h; cases h; rfl
    | inr s2 =>
      intro h
      refine ih s2 ?_ r s h
      have : s2 = stepSt dist reply dedB dedP s0 := by
        rw [stepSt, hnext]; rfl
      rw [this, hstep]; exact hc

set_option maxRecDepth 16000 in
/-- C5 witness: with limit 60 and a first-guess distance of 0.3751 the loop
terminates in one iteration, necessarily with a match. -/
theorem c5_cost_zero_witness :
    (0 : ℚ) < 60 ∧ StopReason.matched = StopReason.matched :=
  ⟨by decide,
    (c5_cost_zero (distConst (mkRat 3751 10000)) (replyConst "w") dedKeep dedKeep "Be").2.2
      60 (by decide) 1 StopReason.matched
      (stepSt (distConst (mkRat 3751 10000)) (replyConst "w") dedKeep dedKeep (initSt "Be"))
      (by decide)⟩

/-- C6: the budget test `TOTAL_COST < COST_LIMIT` is the `while` condition
(line 82), evaluated before any work of the iteration: whenever it fails the
loop returns at once with the state completely untouched (for every distance
oracle, so no evaluation can have happened), and with a cost limit of 0 the
loop from the initial state performs zero iterations and its final
`BEST_GUESSES` emission (line 143) is the empty list. -/
theorem c6_budget_first (dist : String → ℚ) (reply : Nat → String)
    (dedB dedP : List String → List String) :
    (∀ (limit : ℚ) (s : St) (fuel : Nat), ¬ s.TOTAL_COST < limit →
      loop dist reply dedB dedP limit (fuel + 1) s = some (StopReason.budget, s)) ∧
    (∀ t0 fuel, loop dist reply dedB dedP 0 (fuel + 1) (initSt t0) =
      some (StopReason.budget, initSt t0)) ∧
    (∀ t0 : String, (initSt t0).BEST_GUESSES = [] ∧ (initSt t0).GUESSES_MADE = 0) := by
  refine ⟨?_, ?_, fun t0 => ⟨rfl, rfl⟩⟩
  · intro limit s fuel h
    rw [loop, if_neg h]
  · intro t0 fuel
    rw [loop, if_neg (by simp [initSt])]

set_option maxRecDepth 16000 in
/-- C6 witness: cost limit 0 at the initial state — the loop stops before the
first iteration with the state unchanged. -/
theorem c6_budget_first_witness :
    loop (distConst 1) (replyConst "w") dedKeep dedKeep 0 1 (initSt "Be") =
      some (StopReason.budget, initSt "Be") :=
  (c6_budget_first (distConst 1) (replyConst "w") dedKeep dedKeep).1 0 (initSt "Be") 0
    (by decide)

set_option maxRecDepth 16000 in
/-- C10: the task prompt is interpolated once, before the loop, from the
initial guess text (line 65): each iteration preserves `prompt`, after any
number of iterations it still equals `promptPre ++ t0 ++ promptPost` whose
clue names the initial text, and concretely after one iteration the current
guess text has changed while the prompt has not. -/
theorem c10_prompt_fixed (dist : String → ℚ) (reply : Nat → String)
    (dedB dedP : List String → List String) (t0 : String) :
    (∀ s : St, (stepSt dist reply dedB dedP s).prompt = s.prompt) ∧
    (∀ n, (runN dist reply dedB dedP t0 n).prompt = promptPre ++ t0 ++ promptPost) ∧
    (initSt t0).prompt = mkPrompt t0 ∧
    ((runN (distConst 1) replyIdx dedKeep dedKeep "Be" 1).TEXT ≠ "Be" ∧
      (runN (distConst 1) replyIdx dedKeep dedKeep "Be" 1).prompt = mkPrompt "Be") := by
  refine ⟨stepSt_prompt dist reply dedB dedP, ?_, rfl, by decide, by decide⟩
  intro n
  induction n with
  | zero => rfl
  | succ n ih => rw [runN_succ, stepSt_prompt]; exact ih

/-- C10 witness: instantiation of the prompt-preservation facts at a concrete
oracle and state. -/
theorem c10_prompt_fixed_witness :
    (runN (distConst 1) replyIdx dedKeep dedKeep "Be" 3).prompt =
      promptPre ++ "Be" ++ promptPost :=
  (c10_prompt_fixed (distConst 1) replyIdx dedKeep dedKeep "Be").2.1 3

theorem retryEmbed_some {α : Type} (att : Nat → Except String α) :
    ∀ (fuel k0 : Nat) (v : α) (k w : Nat),
      retryEmbed att k0 fuel = some (v, k, w) →
      k0 ≤ k ∧ att k = Except.ok v ∧
      (∀ j, k0 ≤ j → j < k → ∃ e, att j = Except.error e) ∧
      w = EMBED_RETRY_DELAY * (k - k0) := by
  intro fuel
  induction fuel with
  | zero => intro k0 v k w h; cases h
  | succ fuel ih =>
    intro k0 v k w h
    rw [retryEmbed] at h
    cases hatt : att k0 with
    | ok v0 =>
      rw [hatt] at h
      simp only [Option.some.injEq, Prod.mk.injEq] at h
      obtain ⟨hv, hk, hw⟩ := h
      subst hv; subst hk; subst hw
      refine ⟨le_refl _, hatt, fun j hj1 hj2 => absurd hj2 (by omega), by simp⟩
    | error e =>
      rw [hatt] at h
      cases hr : retryEmbed att (k0 + 1) fuel with
      | none => rw [hr] at h; exact absurd h (by simp)
      | some t =>
        obtain ⟨v2, j2, w2⟩ := t
        rw [hr] at h
        simp only [Option.some.injEq, Prod.mk.injEq] at h
        obtain ⟨hv, hk, hw⟩ := h
        subst hv; subst hk
        obtain ⟨hle, hok, herr, hw2⟩ := ih (k0 + 1) v2 j2 w2 hr
        refine ⟨by omega, hok, ?_, ?_⟩
        · intro j hj1 hj2
          by_cases hj : j = k0
          · exact ⟨e, hj ▸ hatt⟩
          · exact herr j (by omega) hj2
        · simp only [EMBED_RETRY_DELAY] at hw hw2 ⊢
          omega

theorem retryEmbed_none {α : Type} (att : Nat → Except String α)
    (h : ∀ j, ∃ e, att j = Except.error e) :
    ∀ fuel k0, retryEmbed att k0 fuel = none := by
  intro fuel
  induction fuel with
  | zero => intro k0; rfl
  | succ fuel ih =>
    intro k0
    obtain ⟨e, he⟩ := h k0
    rw [retryEmbed, he, ih (k0 + 1)]

theorem retryEmbed_complete {α : Type} (att : Nat → Except String α) :
    ∀ (n k0 : Nat) (v : α), att (k0 + n) = Except.ok v →
      (∀ j, k0 ≤ j → j < k0 + n → ∃ e, att j = Except.error e) →
      retryEmbed att k0 (n + 1) = some (v, k0 + n, EMBED_RETRY_DELAY * n) := by
  intro n
  induction n with
  | zero =>
    intro k0 v hok _
    rw [Nat.add_zero] at hok
    rw [retryEmbed, hok]
    simp
  | succ n ih =>
    intro k0 v hok herr
    obtain ⟨e, he⟩ := herr k0 (le_refl _) (by omega)
    have hok2 : att (k0 + 1 + n) = Except.ok v := by
      rw [show k0 + 1 + n = k0 + (n + 1) from by omega]
      exact hok
    have herr2 : ∀ j, k0 + 1 ≤ j → j < k0 + 1 + n → ∃ e2, att j = Except.error e2 :=
      fun j h1 h2 => herr j (by omega) (by omega)
    rw [retryEmbed, he, ih (k0 + 1) v hok2 herr2]
    simp only [Option.some.injEq, Prod.mk.injEq, EMBED_RETRY_DELAY]
    exact ⟨trivial, by omega, by omega⟩

/-- C7: the embedding retry loop (lines 84-90) completes only on a successful
embedding call — whenever it returns, the returned value is the first
successful attempt, every earlier attempt raised an error (each error being
logged and followed by a fixed 7-unit sleep, so the total wait is 7 per
failure), the error value itself is never propagated out; if every attempt
fails the loop never returns; and there is no retry-count ceiling: for any
number k of leading failures, k+1 attempts reach the success. -/
theorem c7_embed_retry_forever (α : Type) :
    (∀ (att : Nat → Except String α) (fuel : Nat) (v : α) (k w : Nat),
      retryEmbed att 0 fuel = some (v, k, w) →
      att k = Except.ok v ∧ (∀ j < k, ∃ e, att j = Except.error e) ∧
      w = EMBED_RETRY_DELAY * k) ∧
    (∀ att : Nat → Except String α, (∀ j, ∃ e, att j = Except.error e) →
      ∀ fuel, retryEmbed att 0 fuel = none) ∧
    (∀ (att : Nat → Except String α) (v : α) (k : Nat), att k = Except.ok v →
      (∀ j < k, ∃ e, att j = Except.error e) →
      retryEmbed att 0 (k + 1) = some (v, k, EMBED_RETRY_DELAY * k)) := by
  refine ⟨?_, ?_, ?_⟩
  · intro att fuel v k w h
    obtain ⟨-, hok, herr, hw⟩ := retryEmbed_some att fuel 0 v k w h
    exact ⟨hok, fun j hj => herr j (Nat.zero_le j) hj, by simpa using hw⟩
  · intro att h fuel
    exact retryEmbed_none att h fuel 0
  · intro att v k hok herr
    have := retryEmbed_complete att k 0 v (by simpa using hok)
      (fun j h1 h2 => herr j (by omega))
    simpa using this

/-- C7 witness: an attempt sequence failing once then succeeding — the retry
returns the attempt-1 value after one logged failure and one 7-unit sleep. -/
theorem c7_embed_retry_witness :
    attOnce 1 = Except.ok 42 ∧ (∃ e, attOnce 0 = Except.error e) ∧
    retryEmbed attOnce 0 5 = some (42, 1, 7) :=
  ⟨((c7_embed_retry_forever Nat).1 attOnce 5 42 1 7 (by decide)).1,
    ((c7_embed_retry_forever Nat).1 attOnce 5 42 1 7 (by decide)).2.1 0 (by decide),
    by decide⟩

/-- C8: dedup is idempotent.  Whatever element order Python's `list(set(·))`
produces, deduplicating a collection with one copy of a record appended and
deduplicating it with the same record appended twice yield lists of equal
length with identical membership: the duplicate insertion does not grow the
deduplicated collection (this covers both `BEST_GUESSES` and `PRIOR_GUESSES`,
lines 98-100). -/
theorem c8_dedup_idempotent (xs : List String) (m : String) (u v : List String)
    (hu : pySetOk (xs ++ [m]) u) (hv : pySetOk (xs ++ [m, m]) v) :
    u.length = v.length ∧ (∀ s, s ∈ u ↔ s ∈ v) := by
  obtain ⟨hnu, hsu, hiu⟩ := hu
  obtain ⟨hnv, hsv, hiv⟩ := hv
  have hem : ∀ s, s ∈ u ↔ s ∈ v := by
    intro s
    constructor
    · intro hs
      apply hiv
      have := hsu s hs
      simp only [List.mem_append, List.mem_singleton, List.mem_cons,
        List.not_mem_nil, or_false] at this ⊢
      tauto
    · intro hs
      apply hiu
      have := hsv s hs
      simp only [List.mem_append, List.mem_singleton, List.mem_cons,
        List.not_mem_nil, or_false] at this ⊢
      tauto
  refine ⟨?_, hem⟩
  have hf : u.toFinset = v.toFinset := by
    ext a
    simp only [List.mem_toFinset]
    exact hem a
  calc u.length = u.toFinset.card := (List.toFinset_card_of_nodup hnu).symm
    _ = v.toFinset.card := by rw [hf]
    _ = v.length := List.toFinset_card_of_nodup hnv

/-- C8 witness: a concrete double insertion — both dedups have 2 elements. -/
theorem c8_dedup_idempotent_witness :
    pySetOk (["a"] ++ ["b"]) ["a", "b"] ∧ pySetOk (["a"] ++ ["b", "b"]) ["b", "a"] ∧
    (["a", "b"] : List String).length = (["b", "a"] : List String).length :=
  ⟨by decide, by decide,
    (c8_dedup_idempotent ["a"] "b" ["a", "b"] ["b", "a"] (by decide) (by decide)).1⟩

theorem chatRetry_some (att : Nat → Except String ChatResp) :
    ∀ (fuel k0 : Nat) (r : ChatResp) (k w : Nat),
      chatRetry att k0 fuel = some (r, k, w) →
      truthy r = true ∧ att k = Except.ok r := by
  intro fuel
  induction fuel with
  | zero => intro k0 r k w h; cases h
  | succ fuel ih =>
    intro k0 r k w h
    rw [chatRetry] at h
    cases hatt : att k0 with
    | ok r0 =>
      rw [hatt] at h
      by_cases ht : truthy r0 = true
      · simp only [ht, if_true, Option.some.injEq, Prod.mk.injEq] at h
        obtain ⟨hr, hk, -⟩ := h
        subst hr; subst hk
        exact ⟨ht, hatt⟩
      · simp only [ht, if_false, Bool.false_eq_true] at h
        cases hr : chatRetry att (k0 + 1) fuel with
        | none => rw [hr] at h; exact absurd h (by simp)
        | some t =>
          obtain ⟨r2, j2, w2⟩ := t
          rw [hr] at h
          simp only [Option.some.injEq, Prod.mk.injEq] at h
          obtain ⟨h1, h2, h3⟩ := h
          subst h1; subst h2
          exact ih (k0 + 1) _ _ w2 hr
    | error e =>
      rw [hatt] at h
      cases hr : chatRetry att (k0 + 1) fuel with
      | none => rw [hr] at h; exact absurd h (by simp)
      | some t =>
        obtain ⟨r2, j2, w2⟩ := t
        rw [hr] at h
        simp only [Option.some.injEq, Prod.mk.injEq] at h
        obtain ⟨h1, h2, h3⟩ := h
        subst h1; subst h2
        exact ih (k0 + 1) _ _ w2 hr

/-- C9: a guidance reply is accepted exactly when `res['message']` passes the
bare truthiness test of line 127 (a non-empty message dict) — a successful
call is accepted iff its message is truthy, everything the retry loop ever
returns was a successful call with a truthy message — and the accepted
content string becomes the next guess verbatim (line 134); in particular a
message whose content field is the empty string is truthy, hence accepted,
and the next guess is the empty string. -/
theorem c9_truthy_accept :
    (∀ (att : Nat → Except String ChatResp) (k fuel : Nat) (r : ChatResp),
      att k = Except.ok r →
      (truthy r = true → chatRetry att k (fuel + 1) = some (r, k, 0)) ∧
      (truthy r = false → chatRetry att k (fuel + 1) = chatRetry att (k + 1) fuel)) ∧
    (∀ (att : Nat → Except String ChatResp) (fuel k0 : Nat) (r : ChatResp) (k w : Nat),
      chatRetry att k0 fuel = some (r, k, w) →
      truthy r = true ∧ att k = Except.ok r) ∧
    (truthy ceResp = true ∧ nextGuess ceResp = some "") := by
  refine ⟨?_, ?_, by decide, by decide⟩
  · intro att k fuel r h
    constructor
    · intro ht
      rw [chatRetry, h]
      simp [ht]
    · intro ht
      rw [chatRetry, h]
      simp only [ht, Bool.false_eq_true, if_false]
      cases hr : chatRetry att (k + 1) fuel with
      | none => rfl
      | some t => obtain ⟨a, b, c⟩ := t; rfl
  · intro att fuel k0 r k w h
    exact chatRetry_some att fuel k0 r k w h

/-- C9 witness: a chat attempt sequence raising once then returning the
role-plus-empty-content message — accepted with a truthy message. -/
theorem c9_truthy_accept_witness :
    truthy ceResp = true ∧ attChat 1 = Except.ok ceResp ∧
    chatRetry attChat 0 3 = some (ceResp, 1, 5) :=
  ⟨(c9_truthy_accept.2.1 attChat 3 0 ceResp 1 5 (by decide)).1,
    (c9_truthy_accept.2.1 attChat 3 0 ceResp 1 5 (by decide)).2,
    by decide⟩

theorem charLtB_asymm (a b : Char) (h : charLtB a b = true) : charLtB b a = false := by
  simp only [charLtB, decide_eq_true_eq] at h
  simp only [charLtB, decide_eq_false_iff_not]
  omega

theorem chLt_asymm : ∀ as bs : List Char, chLt as bs = true → chLt bs as = false := by
  intro as
  induction as with
  | nil =>
    intro bs h
    cases bs with
    | nil => simp [chLt] at h
    | cons b t => simp [chLt]
  | cons a as ih =>
    intro bs h
    cases bs with
    | nil => simp [chLt] at h
    | cons b t =>
      rw [chLt] at h ⊢
      by_cases h1 : charLtB a b = true
      · have h2 : charLtB b a = false := charLtB_asymm a b h1
        simp [h1, h2]
      · by_cases h2 : charLtB b a = true
        · simp [h1, h2] at h
        · simp only [h1, h2, if_false] at h ⊢
          simp only [Bool.not_eq_true] at h1 h2
          simp [h1, h2]
          exact ih t h

theorem pyStrLt_asymm (a b : String) (h : pyStrLt a b = true) : pyStrLt b a = false :=
  chLt_asymm a.data b.data h

theorem sortedB_tail {y : String} {ys : List String} (h : sortedB (y :: ys) = true) :
    sortedB ys = true := by
  cases ys with
  | nil => rfl
  | cons z zs =>
    rw [sortedB, Bool.and_eq_true] at h
    exact h.2

theorem sortedB_head {y z : String} {ys : List String} (h : sortedB (y :: ys) = true)
    (hz : ys.head? = some z) : pyStrLt z y = false := by
  cases ys with
  | nil => cases hz
  | cons a t =>
    rw [List.head?_cons] at hz
    injection hz with hz2
    rw [sortedB, Bool.and_eq_true] at h
    rw [← hz2]
    simpa using h.1

theorem sortedB_cons_of {y : String} {L : List String}
    (hhead : ∀ z, L.head? = some z → pyStrLt z y = false)
    (hL : sortedB L = true) : sortedB (y :: L) = true := by
  cases L with
  | nil => rfl
  | cons z zs =>
    rw [sortedB, Bool.and_eq_true]
    refine ⟨?_, hL⟩
    rw [hhead z rfl]
    rfl

theorem pyInsert_head (x : String) : ∀ (ys : List String) (h : String),
    (pyInsert x ys).head? = some h → h = x ∨ ys.head? = some h := by
  intro ys h
  cases ys with
  | nil =>
    intro hh
    rw [pyInsert, List.head?_cons] at hh
    injection hh with hh2
    exact Or.inl hh2.symm
  | cons y ys =>
    rw [pyInsert]
    by_cases hc : pyStrLt y x = true
    · rw [if_pos hc, List.head?_cons]
      intro hh
      injection hh with hh2
      exact Or.inr (by rw [List.head?_cons, hh2])
    · rw [if_neg hc, List.head?_cons]
      intro hh
      injection hh with hh2
      exact Or.inl hh2.symm

theorem pyInsert_sortedB (x : String) : ∀ ys : List String,
    sortedB ys = true → sortedB (pyInsert x ys) = true := by
  intro ys
  induction ys with
  | nil => intro _; rfl
  | cons y ys ih =>
    intro h
    rw [pyInsert]
    by_cases hc : pyStrLt y x = true
    · rw [if_pos hc]
      apply sortedB_cons_of
      · intro z hz
        rcases pyInsert_head x ys z hz with hz1 | hz2
        · subst hz1
          exact pyStrLt_asymm y z hc
        · exact sortedB_head h hz2
      · exact ih (sortedB_tail h)
    · rw [if_neg hc]
      have hfalse : pyStrLt y x = false := by
        cases hb : pyStrLt y x
        · rfl
        · exact absurd hb hc
      rw [sortedB, Bool.and_eq_true]
      exact ⟨by rw [hfalse]; rfl, h⟩

theorem sortedB_pySort : ∀ xs : List String, sortedB (pySort xs) = true := by
  intro xs
  induction xs with
  | nil => rfl
  | cons x xs ih =>
    rw [pySort]
    exact pyInsert_sortedB x (pySort xs) ih

theorem sortedB_take : ∀ (n : Nat) (xs : List String), sortedB xs = true →
    sortedB (xs.take n) = true := by
  intro n
  induction n with
  | zero => intro xs _; rfl
  | succ n ih =>
    intro xs h
    cases xs with
    | nil => rfl
    | cons a l =>
      rw [List.take_succ_cons]
      apply sortedB_cons_of
      · intro z hz
        apply sortedB_head h
        cases l with
        | nil => rw [List.take_nil] at hz; cases hz
        | cons b t =>
          cases n with
          | zero => rw [List.take_zero] at hz; cases hz
          | succ m =>
            rw [List.take_succ_cons, List.head?_cons] at hz
            rw [List.head?_cons]
            exact hz
      · exact ih l (sortedB_tail h)

theorem priorUpdate_len {pg : List String} {m : String} (h : pg.length ≤ 8) :
    (priorUpdate pg m).1.length ≤ 8 := by
  unfold priorUpdate
  split_ifs with hc
  · simp only [List.length_drop, List.length_append, List.length_singleton]
    omega
  · simp only [List.length_append, List.length_singleton] at hc ⊢
    omega

theorem priorUpdate_evicted {pg : List String} {m e : String}
    (h : (priorUpdate pg m).2 = some e) : pg.head? = some e := by
  unfold priorUpdate at h
  split_ifs at h with hc
  · cases pg with
    | nil => simp at hc
    | cons a t =>
      rw [List.cons_append, List.head?_cons] at h
      rw [List.head?_cons]
      exact h

theorem stepSt_prior_len (dist : String → ℚ) (reply : Nat → String)
    (dedB dedP : List String → List String) (hP : DedOk dedP) (s : St)
    (h : s.PRIOR_GUESSES.length ≤ 8) :
    (stepSt dist reply dedB dedP s).PRIOR_GUESSES.length ≤ 8 := by
  rw [stepSt_PRIOR]
  split_ifs with hc
  · exact le_trans (pySetOk_length_le (hP s.PRIOR_GUESSES)) h
  · exact priorUpdate_len (le_trans (pySetOk_length_le (hP s.PRIOR_GUESSES)) h)

theorem stepSt_best_len (dist : String → ℚ) (reply : Nat → String)
    (dedB dedP : List String → List String) (hB : DedOk dedB) (s : St)
    (h : s.BEST_GUESSES.length ≤ 3) :
    (stepSt dist reply dedB dedP s).BEST_GUESSES.length ≤ 3 := by
  rw [stepSt_BEST]
  unfold bestUpdate
  split_ifs with hc
  · exact List.length_take_le 3 _
  · exact le_trans (pySetOk_length_le (hB s.BEST_GUESSES)) h

theorem stepSt_guard (dist : String → ℚ) (reply : Nat → String)
    (dedB dedP : List String → List String) (s : St)
    (hg : ∀ b, s.CURRENT_BEST_ERROR = some b → MATCH_ERROR < b)
    (hd : ¬ dist s.TEXT ≤ MATCH_ERROR) :
    ∀ b, (stepSt dist reply dedB dedP s).CURRENT_BEST_ERROR = some b → MATCH_ERROR < b := by
  intro b
  rw [stepSt_ERR]
  unfold bestUpdate
  split_ifs with hc
  · intro hb
    injection hb with hb2
    subst hb2
    exact not_le.mp hd
  · exact hg b

theorem body_inl_best (dist : String → ℚ) (reply : Nat → String)
    (dedB dedP : List String → List String) (s s2 : St)
    (hg : ∀ b, s.CURRENT_BEST_ERROR = some b → MATCH_ERROR < b)
    (h : (body dist reply dedB dedP s).next = Sum.inl s2) :
    sortedB s2.BEST_GUESSES = true ∧ s2.BEST_GUESSES.length ≤ 3 := by
  have hd : dist s.TEXT ≤ MATCH_ERROR :=
    (body_isLeft_iff dist reply dedB dedP s).mp (by rw [h]; rfl)
  have hlt : ltInf (dist s.TEXT) s.CURRENT_BEST_ERROR = true := by
    cases hb : s.CURRENT_BEST_ERROR with
    | none => rfl
    | some b =>
      simp only [ltInf, decide_eq_true_eq]
      exact lt_of_le_of_lt hd (hg b hb)
  revert h
  simp only [body]
  split_ifs with _hd2
  · intro h
    injection h with h2
    subst h2
    rw [show (bestUpdate (dist s.TEXT) s.TEXT s.CURRENT_BEST_TEXT s.CURRENT_BEST_ERROR
        (dedB s.BEST_GUESSES)) = (s.TEXT, some (dist s.TEXT),
        (pySort (dedB s.BEST_GUESSES ++ [mkRecord (dist s.TEXT) s.TEXT])).take 3) from
      bestUpdate_pos _ _ _ _ _ hlt]
    exact ⟨sortedB_take 3 _ (sortedB_pySort _), List.length_take_le 3 _⟩

theorem loop_final_best (dist : String → ℚ) (reply : Nat → String)
    (dedB dedP : List String → List String) (hB : DedOk dedB) :
    ∀ (fuel : Nat) (s0 : St), s0.TOTAL_COST = 0 →
      s0.BEST_GUESSES.length ≤ 3 →
      (∀ b, s0.CURRENT_BEST_ERROR = some b → MATCH_ERROR < b) →
      ∀ r s, loop dist reply dedB dedP COST_LIMIT fuel s0 = some (r, s) →
      sortedB s.BEST_GUESSES = true ∧ s.BEST_GUESSES.length ≤ 3 := by
  intro fuel
  induction fuel with
  | zero => intro s0 _ _ _ r s h; cases h
  | succ fuel ih =>
    intro s0 hc hlen hg r s h
    rw [loop, if_pos (by rw [hc]; decide)] at h
    revert h
    cases hnext : (body dist reply dedB dedP s0).next with
    | inl s2 =>
      intro h
      injection h with h2
      rw [Prod.mk.injEq] at h2
      rw [← h2.2]
      exact body_inl_best dist reply dedB dedP s0 s2 hg hnext
    | inr s2 =>
      intro h
      have hd : ¬ dist s0.TEXT ≤ MATCH_ERROR := by
        intro hd
        have hleft := (body_isLeft_iff dist reply dedB dedP s0).mpr hd
        rw [hnext] at hleft
        cases hleft
      have hs2 : s2 = stepSt dist reply dedB dedP s0 := by
        rw [stepSt, hnext]
        rfl
      refine ih s2 ?_ ?_ ?_ r s h
      · rw [hs2, stepSt_COST]; exact hc
      · rw [hs2]; exact stepSt_best_len dist reply dedB dedP hB s0 hlen
      · rw [hs2]; exact stepSt_guard dist reply dedB dedP s0 hg hd

set_option maxRecDepth 16000 in
/-- C1 counterexample: the claim's strict-FIFO part is false.  Run eight
iterations (constant distance 1, fresh reply each time) with a dedup order
for the window that Python is allowed to produce (`dedRev`, duplicate-free
and membership-preserving, as the first conjunct certifies).  The
first-appended record of the window is `ERROR 1.0000, "Be"` (appended in
iteration 1).  In the ninth iteration the window exceeds 8 entries and the
code drops the head of the reordered list (line 141): the evicted record is
not the oldest one — the oldest record is still in the window afterwards. -/
theorem c1_fifo_counterexample :
    pySetOk ceC1run.PRIOR_GUESSES (dedRev ceC1run.PRIOR_GUESSES) ∧
    ceC1run.PRIOR_GUESSES.length = 8 ∧
    "ERROR 1.0000, \"Be\"" ∈ ceC1run.PRIOR_GUESSES ∧
    (body (distConst 1) replyIdx dedKeep dedRev ceC1run).evicted =
      some "ERROR 1.0000, \"guess 7\"" ∧
    (body (distConst 1) replyIdx dedKeep dedRev ceC1run).evicted ≠
      some "ERROR 1.0000, \"Be\"" ∧
    "ERROR 1.0000, \"Be\"" ∈ (stepSt (distConst 1) replyIdx dedKeep dedRev ceC1run).PRIOR_GUESSES := by
  refine ⟨by decide, by decide, by decide, by decide, by decide, by decide⟩

/-- C1 (amended): the size bound holds — the Recent-Guesses Window never
exceeds 8 entries at iteration boundaries, for every admissible dedup order —
but eviction is only "drop the head of the deduplicated list": whenever a
record is evicted it is the head of `list(set(PRIOR_GUESSES))`, whose order
Python leaves arbitrary, so the evicted record is the oldest one only when
the dedup happens to preserve insertion order. -/
theorem c1_window_cap_and_eviction (dist : String → ℚ) (reply : Nat → String)
    (dedB dedP : List String → List String) (hP : DedOk dedP) (t0 : String) :
    (∀ n, (runN dist reply dedB dedP t0 n).PRIOR_GUESSES.length ≤ 8) ∧
    (∀ (s : St) (e : String), (body dist reply dedB dedP s).evicted = some e →
      (dedP s.PRIOR_GUESSES).head? = some e) := by
  constructor
  · intro n
    induction n with
    | zero => simp [runN, initSt]
    | succ n ih =>
      rw [runN_succ]
      exact stepSt_prior_len dist reply dedB dedP hP _ ih
  · intro s e h
    revert h
    simp only [body]
    split_ifs with hd
    · intro h
      exact h.elim
    · intro h
      exact priorUpdate_evicted h

set_option maxRecDepth 16000 in
/-- C1 witness: with the insertion-order-preserving dedup the window after
nine iterations has at most 8 entries, and the record evicted in the ninth
iteration is the head of the deduplicated window. -/
theorem c1_window_cap_witness :
    (runN (distConst 1) replyIdx dedKeep dedKeep "Be" 9).PRIOR_GUESSES.length ≤ 8 ∧
    (dedKeep (runN (distConst 1) replyIdx dedKeep dedKeep "Be" 8).PRIOR_GUESSES).head? =
      some "ERROR 1.0000, \"Be\"" :=
  ⟨(c1_window_cap_and_eviction (distConst 1) replyIdx dedKeep dedKeep dedOk_dedKeep "Be").1 9,
    (c1_window_cap_and_eviction (distConst 1) replyIdx dedKeep dedKeep dedOk_dedKeep "Be").2
      (runN (distConst 1) replyIdx dedKeep dedKeep "Be" 8) "ERROR 1.0000, \"Be\"" (by decide)⟩

set_option maxRecDepth 16000 in
/-- C2 counterexample: the "sorted at every observation point" part is false.
After two iterations under `distTbl` the best list is sorted; the third
iteration first deduplicates it with an order Python is allowed to produce
(`dedRev`, certified by the first conjunct) and hands exactly that list to
the guidance context of line 103 — the observed list (also the one left in
`BEST_GUESSES` when no new best occurs) is not sorted ascending. -/
theorem c2_sorted_counterexample :
    pySetOk ceC2run.BEST_GUESSES (dedRev ceC2run.BEST_GUESSES) ∧
    sortedB ceC2run.BEST_GUESSES = true ∧
    (body distTbl replyIdx dedRev dedKeep ceC2run).shownBest =
      ["ERROR 1.0000, \"Be\"", "ERROR 0.9000, \"guess 1\""] ∧
    sortedB (body distTbl replyIdx dedRev dedKeep ceC2run).shownBest = false := by
  refine ⟨by decide, by decide, by decide, by decide⟩

/-- C2 (amended): the size bound holds — `BEST_GUESSES` never has more than 3
records, for every admissible dedup order — and the list is sorted ascending
(in the string order the code sorts by, line 112) immediately after every
new-best insertion and at the final emission of a terminated loop; but in
between, the per-iteration dedup may reorder it arbitrarily, so observation
points between a dedup and the next insertion need not be sorted. -/
theorem c2_best_cap_and_sorted (dist : String → ℚ) (reply : Nat → String)
    (dedB dedP : List String → List String) (hB : DedOk dedB) (t0 : String) :
    (∀ n, (runN dist reply dedB dedP t0 n).BEST_GUESSES.length ≤ 3) ∧
    (∀ s : St, ltInf (dist s.TEXT) s.CURRENT_BEST_ERROR = true →
      sortedB (stepSt dist reply dedB dedP s).BEST_GUESSES = true) ∧
    (∀ fuel r s, loop dist reply dedB dedP COST_LIMIT fuel (initSt t0) = some (r, s) →
      sortedB s.BEST_GUESSES = true ∧ s.BEST_GUESSES.length ≤ 3) := by
  refine ⟨?_, ?_, ?_⟩
  · intro n
    induction n with
    | zero => simp [runN, initSt]
    | succ n ih =>
      rw [runN_succ]
      exact stepSt_best_len dist reply dedB dedP hB _ ih
  · intro s hlt
    rw [stepSt_BEST, bestUpdate_pos _ _ _ _ _ hlt]
    exact sortedB_take 3 _ (sortedB_pySort _)
  · intro fuel r s h
    refine loop_final_best dist reply dedB dedP hB fuel (initSt t0) rfl ?_ ?_ r s h
    · simp [initSt]
    · intro b hb
      simp [initSt] at hb

set_option maxRecDepth 16000 in
/-- C2 witness: a one-iteration matching run — the emitted best list is
sorted and within the cap. -/
theorem c2_best_cap_witness :
    sortedB (stepSt (distConst (mkRat 3751 10000)) (replyConst "w") dedKeep dedKeep
        (initSt "Be")).BEST_GUESSES = true ∧
    (stepSt (distConst (mkRat 3751 10000)) (replyConst "w") dedKeep dedKeep
        (initSt "Be")).BEST_GUESSES.length ≤ 3 :=
  (c2_best_cap_and_sorted (distConst (mkRat 3751 10000)) (replyConst "w") dedKeep dedKeep
      dedOk_dedKeep "Be").2.2 1 StopReason.matched
    (stepSt (distConst (mkRat 3751 10000)) (replyConst "w") dedKeep dedKeep (initSt "Be"))
    (by decide)

end NoModalDemo
